import Mathlib

/-!
Shallow embedding of `txaws/server/schema.py` (the schema-driven marshaller
between the flat dotted/indexed wire format and typed nested argument trees),
together with theorems settling the specification claims about it.

Modelling conventions:
* Python `dict`s are modelled as association lists in insertion order with
  unique keys; `d[k] = v` is `dictSet` (overwrite in place), `d.get`/`in` is
  `alookup`.
* Python exceptions are explicit: `Except` results.  The request-error
  taxonomy (`MissingParameterError`, ...) and plain Python exceptions
  (`ValueError`, `KeyError`, ...) are separate constructors of `PErr`;
  `parse`-level code can only raise plain Python exceptions, which is recorded
  by giving it the error type `PyExc`.
* Machine integers do not occur; Python `int` is `Int`.
-/

/-! ## Python-level values and exceptions -/

/-- Plain Python exceptions that the `parse`-level code of the module can
raise.  None of them belongs to the request-error taxonomy of
`SchemaError` subclasses. -/
inductive PyExc where
  | valueError
  | keyError (key : String)
  | typeError
  | attributeError
  | indexError
deriving DecidableEq, Repr

/-- Errors surfacing from the module: the four `SchemaError` subclasses
(`MissingParameterError`, `InvalidParameterValueError`,
`InvalidParameterCombinationError`, `UnknownParameterError`), the
construction-time `RuntimeError` / `AssertionError` / `NotImplementedError`,
and uncaught plain Python exceptions (`PErr.exc`).  The string argument of
`missingParameter` is the `%s`-rendition of the parameter name. -/
inductive PErr where
  | missingParameter (name : String)
  | invalidParameterValue (message : String)
  | invalidParameterCombination (name : String)
  | unknownParameter (name : String)
  | runtimeError (message : String)
  | assertionError
  | notImplementedError
  | exc (e : PyExc)
deriving DecidableEq, Repr

/-- Whether an error belongs to the declared request-error taxonomy
(§7 of the spec): MissingParameter, InvalidParameterValue,
InvalidParameterCombination, UnknownParameter. -/
def PErr.inTaxonomy : PErr → Bool
  | .missingParameter _ => true
  | .invalidParameterValue _ => true
  | .invalidParameterCombination _ => true
  | .unknownParameter _ => true
  | _ => false

/-- A Python `datetime`: wall-clock fields plus the tzinfo's UTC offset in
minutes (`none` = naive datetime, `some 0` = `tzutc()`). -/
structure PyDateTime where
  year : Nat
  month : Nat
  day : Nat
  hour : Nat
  minute : Nat
  second : Nat
  offsetMinutes : Option Int
deriving DecidableEq, Repr

/-- Python values flowing through the module: raw/parsed leaf values and the
nested containers produced by `parse`/consumed by `format`. -/
inductive PyVal where
  | str (s : String)
  | int (n : Int)
  | bool (b : Bool)
  | none
  | datetime (dt : PyDateTime)
  | list (xs : List PyVal)
  | dict (entries : List (String × PyVal))

/-- Whether a Python value is hashable (usable as a dict key).  Lists and
dicts are unhashable; using one as a key raises `TypeError`. -/
def pyHashable : PyVal → Bool
  | .list _ => false
  | .dict _ => false
  | _ => true

/-- Equality as used on Python dict keys.  Dict keys are always hashable, so
only the hashable constructors need to compare equal; an unhashable value
never reaches a key position (a `TypeError` is raised first). -/
def pyKeyEq : PyVal → PyVal → Bool
  | .str a, .str b => a == b
  | .int a, .int b => a == b
  | .bool a, .bool b => a == b
  | .none, .none => true
  | .datetime a, .datetime b => a == b
  | _, _ => false

/-- Lookup in a Python dict keyed by (hashable) values. -/
def plookup {α : Type} : List (PyVal × α) → PyVal → Option α
  | [], _ => Option.none
  | (k, v) :: rest, key => if pyKeyEq k key then some v else plookup rest key

/-- `d[k] = v` on a Python dict keyed by (hashable) values. -/
def pdictSet {α : Type} : List (PyVal × α) → PyVal → α → List (PyVal × α)
  | [], k, v => [(k, v)]
  | (k0, v0) :: rest, k, v =>
      if pyKeyEq k0 k then (k, v) :: rest else (k0, v0) :: pdictSet rest k v

/-- The nested raw tree built by `_convert_flat_to_nest`: every node is
either a raw leaf of type `α` or a string-keyed mapping. -/
inductive NTree (α : Type) where
  | leaf (a : α)
  | map (entries : List (String × NTree α))
deriving Repr

/-! ## Association-list (Python dict) helpers -/

/-- `d.get(k)` / `k in d` on a Python dict modelled as an association list. -/
def alookup {κ α : Type} [DecidableEq κ] : List (κ × α) → κ → Option α
  | [], _ => Option.none
  | (k, v) :: rest, key => if k = key then some v else alookup rest key

/-- `d[k] = v` on a Python dict: overwrite in place if the key exists,
append otherwise. -/
def dictSet {κ α : Type} [DecidableEq κ] : List (κ × α) → κ → α → List (κ × α)
  | [], k, v => [(k, v)]
  | (k0, v0) :: rest, k, v =>
      if k0 = k then (k, v) :: rest else (k0, v0) :: dictSet rest k v

/-! ## Structural string helpers (so that terms evaluate by rewriting) -/

def isSpaceChar (c : Char) : Bool :=
  c = ' ' || c = '\t' || c = '\n' || c = '\r' || c = '\x0b' || c = '\x0c'

/-- Python `s.strip()` for `int()`: drop surrounding whitespace. -/
def pyTrim (s : String) : String :=
  String.mk (((s.data.dropWhile isSpaceChar).reverse.dropWhile isSpaceChar).reverse)

def splitCharsGo (sep : Char) : List Char → List Char → List String
  | [], acc => [String.mk acc.reverse]
  | c :: cs, acc =>
      if c = sep then String.mk acc.reverse :: splitCharsGo sep cs []
      else splitCharsGo sep cs (c :: acc)

/-- Python `s.split('.')` (no collapsing; the empty string yields `[""]`). -/
def splitDots (s : String) : List String :=
  splitCharsGo '.' s.data []

/-- `".".join(parts)`. -/
def joinDots : List String → String
  | [] => ""
  | part :: rest => if rest.isEmpty then part else part ++ "." ++ joinDots rest

/-! ## Python `int()` and `str()` fragments -/

/-- Python `int(s)` on a string: optional surrounding whitespace, optional
sign, at least one decimal digit; anything else raises `ValueError`. -/
def pyInt (s : String) : Except PyExc Int :=
  let t := pyTrim s
  match t.toList with
  | [] => .error .valueError
  | c :: rest =>
      let p : Bool × List Char :=
        if c = '-' then (true, rest)
        else if c = '+' then (false, rest)
        else (false, c :: rest)
      if p.2 ≠ [] ∧ p.2.all Char.isDigit then
        let n : Nat := p.2.foldl (fun acc d => acc * 10 + (d.toNat - '0'.toNat)) 0
        .ok (if p.1 then -(n : Int) else (n : Int))
      else .error .valueError

/-- Python list item assignment `xs[i] = v` with negative-index wrap-around;
out-of-range raises `IndexError`. -/
def listAssign (xs : List PyVal) (i : Int) (v : PyVal) : Except PyExc (List PyVal) :=
  let n : Int := xs.length
  let j := if i < 0 then i + n else i
  if 0 ≤ j ∧ j < n then .ok (xs.set j.toNat v) else .error .indexError

/-! ## Calendar arithmetic for `datetime` (UTC conversion in `utctimetuple`) -/

/-- Days since 1970-01-01 of a proleptic-Gregorian civil date
(standard civil-from-days algorithm with truncating division). -/
def daysFromCivil (y m d : Int) : Int :=
  let y2 := if m ≤ 2 then y - 1 else y
  let era := (if 0 ≤ y2 then y2 else y2 - 399) / 400
  let yoe := y2 - era * 400
  let mp := (m + 9) % 12
  let doy := (153 * mp + 2) / 5 + d - 1
  let doe := yoe * 365 + yoe / 4 - yoe / 100 + doy
  era * 146097 + doe - 719468

/-- Inverse of `daysFromCivil`: `(year, month, day)` for a day count. -/
def civilFromDays (z0 : Int) : Int × Int × Int :=
  let z := z0 + 719468
  let era := (if 0 ≤ z then z else z - 146096) / 146097
  let doe := z - era * 146097
  let yoe := (doe - doe / 1460 + doe / 36524 - doe / 146096) / 365
  let y := yoe + era * 400
  let doy := doe - (365 * yoe + yoe / 4 - yoe / 100)
  let mp := (5 * doy + 2) / 153
  let d := doy - (153 * mp + 2) / 5 + 1
  let m := if mp < 10 then mp + 3 else mp - 9
  (if m ≤ 2 then y + 1 else y, m, d)

/-- The absolute instant a `datetime` denotes, in seconds since the epoch
(naive datetimes are taken at face value). -/
def dtInstantSeconds (dt : PyDateTime) : Int :=
  daysFromCivil dt.year dt.month dt.day * 86400 +
    dt.hour * 3600 + dt.minute * 60 + dt.second - (dt.offsetMinutes.getD 0) * 60

/-- Python `datetime.utctimetuple()`: for an aware datetime, the wall-clock
fields after conversion to UTC; for a naive one, the fields unchanged. -/
def utctimetuple (dt : PyDateTime) : PyDateTime :=
  match dt.offsetMinutes with
  | Option.none => dt
  | some off =>
      let total := daysFromCivil dt.year dt.month dt.day * 1440 +
        dt.hour * 60 + dt.minute - off
      let days := Int.fdiv total 1440
      let rem := Int.fmod total 1440
      let c := civilFromDays days
      { year := c.1.toNat, month := c.2.1.toNat, day := c.2.2.toNat,
        hour := (Int.fdiv rem 60).toNat, minute := (Int.fmod rem 60).toNat,
        second := dt.second, offsetMinutes := some 0 }

def isLeapYear (y : Nat) : Bool :=
  (y % 4 == 0 && y % 100 != 0) || y % 400 == 0

def daysInMonth (y m : Nat) : Nat :=
  if m = 2 then (if isLeapYear y then 29 else 28)
  else if m = 4 ∨ m = 6 ∨ m = 9 ∨ m = 11 then 30
  else 31

/-- Read exactly `n` decimal digits from the front of a character list. -/
def grabDigits : Nat → List Char → Option (Nat × List Char)
  | 0, cs => some (0, cs)
  | n + 1, c :: cs =>
      if c.isDigit then
        match grabDigits n cs with
        | some (v, rest) => some ((c.toNat - '0'.toNat) * 10 ^ n + v, rest)
        | Option.none => Option.none
      else Option.none
  | _ + 1, [] => Option.none

def expectChar (c : Char) : List Char → Option (List Char)
  | d :: cs => if d = c then some cs else Option.none
  | [] => Option.none

/-- Modelled from the spec: the source delegates ISO-8601 text parsing to the
external capability `dateutil.parser.parse`, whose internals are out of scope
there ("date/time parsing library internals (treated as a capability)").
On an ISO-8601 date-time string it yields the wall-clock fields exactly as
written together with the explicit UTC offset (`Z` = offset 0; no suffix =
naive datetime); unparseable text raises `ValueError`. -/
def dateutilParse (s : String) : Except PyExc PyDateTime :=
  let parsed : Option PyDateTime := do
    let cs := s.toList
    let (y, cs) ← grabDigits 4 cs
    let cs ← expectChar '-' cs
    let (mo, cs) ← grabDigits 2 cs
    let cs ← expectChar '-' cs
    let (d, cs) ← grabDigits 2 cs
    let cs ← expectChar 'T' cs
    let (h, cs) ← grabDigits 2 cs
    let cs ← expectChar ':' cs
    let (mi, cs) ← grabDigits 2 cs
    let cs ← expectChar ':' cs
    let (sec, cs) ← grabDigits 2 cs
    let off : Option (Option Int × List Char) :=
      match cs with
      | [] => some (Option.none, [])
      | 'Z' :: rest => some (some 0, rest)
      | '+' :: rest =>
          match grabDigits 2 rest with
          | some (oh, rest) =>
              match expectChar ':' rest with
              | some rest =>
                  match grabDigits 2 rest with
                  | some (om, rest) => some (some ((oh * 60 + om : Nat) : Int), rest)
                  | Option.none => Option.none
              | Option.none => Option.none
          | Option.none => Option.none
      | '-' :: rest =>
          match grabDigits 2 rest with
          | some (oh, rest) =>
              match expectChar ':' rest with
              | some rest =>
                  match grabDigits 2 rest with
                  | some (om, rest) => some (some (-((oh * 60 + om : Nat) : Int)), rest)
                  | Option.none => Option.none
              | Option.none => Option.none
          | Option.none => Option.none
      | _ => Option.none
    match off with
    | some (o, rest) =>
        if rest = [] ∧ 1 ≤ mo ∧ mo ≤ 12 ∧ 1 ≤ d ∧ d ≤ daysInMonth y mo ∧
            h ≤ 23 ∧ mi ≤ 59 ∧ sec ≤ 59 then
          some ⟨y, mo, d, h, mi, sec, o⟩
        else Option.none
    | Option.none => Option.none
  match parsed with
  | some dt => .ok dt
  | Option.none => .error .valueError

def pad2 (n : Nat) : String :=
  if n < 10 then "0" ++ toString n else toString n

def pad4 (n : Nat) : String :=
  if n < 10 then "000" ++ toString n
  else if n < 100 then "00" ++ toString n
  else if n < 1000 then "0" ++ toString n
  else toString n

/-! ## Parameters (`Parameter` and its subclasses) -/

/-- The cross-cutting attributes set by `Parameter.__init__`. -/
structure PAttrs where
  name : Option String
  optional : Bool
  default : PyVal
  min : Option Int
  max : Option Int
  allowNone : Bool
  validator : Option (PyVal → Bool)

/-- The `Parameter` subclasses of the module.  `enum` stores the forward
mapping together with the reverse mapping precomputed by `Enum.__init__`;
`list` and `struct` hold their nested parameters (`item` / `fields`). -/
inductive Param where
  | unicode (attrs : PAttrs)
  | rawstr (attrs : PAttrs)
  | integer (attrs : PAttrs)
  | bool (attrs : PAttrs)
  | enum (attrs : PAttrs) (mapping : List (String × PyVal)) (reverse : List (PyVal × String))
  | date (attrs : PAttrs)
  | list (attrs : PAttrs) (item : Param)
  | struct (attrs : PAttrs) (fields : List (String × Param))

def Param.attrs : Param → PAttrs
  | .unicode a => a
  | .rawstr a => a
  | .integer a => a
  | .bool a => a
  | .enum a _ _ => a
  | .date a => a
  | .list a _ => a
  | .struct a _ => a

/-- The `kind` class attribute; `List` and `Structure` define none
(accessing it raises `AttributeError`). -/
def Param.kindOf : Param → Option String
  | .unicode _ => some "unicode"
  | .rawstr _ => some "raw string"
  | .integer _ => some "integer"
  | .bool _ => some "boolean"
  | .enum _ _ _ => some "enum"
  | .date _ => some "date"
  | .list _ _ => Option.none
  | .struct _ _ => Option.none

/-- Python `str(None)` vs `str(name)` as interpolated by `"%s" % name`. -/
def pyStrOfOptName : Option String → String
  | some s => s
  | Option.none => "None"

/-! ## `repr`/`str` of nested raw trees (Python `str(dict)`) -/

mutual

/-- Python `repr` of a nested raw value (`str` on a dict renders its repr). -/
def reprN : NTree String → String
  | .leaf s => "'" ++ s ++ "'"
  | .map m => "\x7b" ++ reprEntries m ++ "\x7d"

def reprEntries : List (String × NTree String) → String
  | [] => ""
  | (k, v) :: rest =>
      "'" ++ k ++ "': " ++ reprN v ++
        (if rest.isEmpty then "" else ", ") ++ reprEntries rest

end

/-- Python `"%s" % value` for a raw value: a string renders itself,
a dict renders its repr. -/
def strOfNTree : NTree String → String
  | .leaf s => s
  | .map m => reprN (.map m)

/-- Python `value == ""` on a raw value (only the empty string compares
equal; a dict never does). -/
def isEmptyStr : NTree String → Bool
  | .leaf s => s == ""
  | .map _ => false

/-! ## `parse` (`Parameter.parse` and its overrides)

`parse` receives the raw string for scalar parameters and the nested mapping
for `List`/`Structure`; it can only raise plain Python exceptions (`PyExc`),
never a `SchemaError`. -/

mutual

def parsePy : Param → NTree String → Except PyExc PyVal
  | .unicode _, .leaf s => .ok (.str s)                 -- value.decode("utf-8")
  | .unicode _, .map _ => .error .attributeError        -- dict has no .decode
  | .rawstr _, .leaf s => .ok (.str s)                  -- str(value)
  | .rawstr _, .map m => .ok (.str (reprN (.map m)))    -- str(dict) = its repr
  | .integer _, .leaf s => (pyInt s).map PyVal.int      -- int(value)
  | .integer _, .map _ => .error .typeError             -- int(dict)
  | .bool _, .leaf s =>
      if s = "true" then .ok (.bool true)
      else if s = "false" then .ok (.bool false)
      else .error .valueError
  | .bool _, .map _ => .error .valueError               -- dict == "true" is False
  | .enum _ mapping _, .leaf s =>
      match alookup mapping s with                      -- self.mapping[value]
      | some v => .ok v
      | Option.none => .error .valueError               -- KeyError caught, ValueError raised
  | .enum _ _ _, .map _ => .error .typeError            -- dict is unhashable
  | .date _, .leaf s =>                                 -- parse(value).replace(tzinfo=tzutc())
      (dateutilParse s).map (fun dt => .datetime { dt with offsetMinutes := some 0 })
  | .date _, .map _ => .error .typeError
  | .list _ _, .leaf _ => .error .attributeError        -- str has no .iteritems
  | .list _ item, .map entries =>
      (parseListGo item (List.replicate entries.length PyVal.none) entries).map PyVal.list
  | .struct _ _, .leaf _ => .error .attributeError
  | .struct _ fields, .map entries =>
      (parseStructGo fields entries).map PyVal.dict

/-- `List.parse`: `result = [None] * len(value)`, then for each `(k, w)`
assign `result[int(k) - 1] = item.parse(w)` (the right-hand side is
evaluated before the index). -/
def parseListGo (item : Param) (acc : List PyVal) :
    List (String × NTree String) → Except PyExc (List PyVal)
  | [] => .ok acc
  | (k, w) :: rest => do
      let pv ← parsePy item w
      let i ← pyInt k
      let acc2 ← listAssign acc (i - 1) pv
      parseListGo item acc2 rest

/-- `Structure.parse`: for each `(k, w)` set `result[k] = fields[k].parse(w)`
(`KeyError` when `k` is not a declared field). -/
def parseStructGo (fields : List (String × Param)) :
    List (String × NTree String) → Except PyExc (List (String × PyVal))
  | [] => .ok []
  | (k, w) :: rest =>
      match alookup fields k with
      | Option.none => .error (.keyError k)
      | some q => do
          let pv ← parsePy q w
          let tail ← parseStructGo fields rest
          .ok ((k, pv) :: tail)

end

/-! ## `Parameter._check_range` and `Parameter.coerce` -/

/-- `Parameter.measure` as dispatched over the subclasses: `Unicode` measures
length, `Integer` measures `int(value)`; every other subclass inherits the
base implementation, which raises `NotImplementedError`. -/
def measurePy (p : Param) (v : NTree String) : Except PErr Int :=
  match p with
  | .unicode _ =>
      match v with
      | .leaf s => .ok (s.length : Int)
      | .map m => .ok (m.length : Int)
  | .integer _ =>
      match v with
      | .leaf s => (pyInt s).mapError PErr.exc
      | .map _ => .error (.exc .typeError)
  | _ => .error .notImplementedError

/-- `lower_than_min_template % bound` for the subclasses defining it
(only `Integer` and `Unicode` do; the others never reach it because their
`measure` raises first). -/
def lowerTemplate (p : Param) (bound : Int) : String :=
  match p with
  | .integer _ => "Value must be at least " ++ toString bound ++ "."
  | .unicode _ => "Length must be at least " ++ toString bound ++ "."
  | _ => ""

/-- `greater_than_max_template % bound`, same remark as `lowerTemplate`. -/
def upperTemplate (p : Param) (bound : Int) : String :=
  match p with
  | .integer _ => "Value exceeds maximum of " ++ toString bound ++ "."
  | .unicode _ => "Length exceeds maximum of " ++ toString bound ++ "."
  | _ => ""

/-- The `"Value (%s) for parameter %s is invalid.  %s"` message of
`_check_range`. -/
def rangeHeader (valueStr nameStr tail : String) : String :=
  "Value (" ++ valueStr ++ ") for parameter " ++ nameStr ++ " is invalid.  " ++ tail

/-- The max half of `_check_range`. -/
def checkMaxPart (p : Param) (v : NTree String) (m : Int) : Except PErr Unit :=
  match p.attrs.max with
  | some mx =>
      if mx < m then
        .error (.invalidParameterValue
          (rangeHeader (strOfNTree v) (pyStrOfOptName p.attrs.name) (upperTemplate p mx)))
      else .ok ()
  | Option.none => .ok ()

/-- `Parameter._check_range`. -/
def checkRange (p : Param) (v : NTree String) : Except PErr Unit :=
  if p.attrs.min = Option.none ∧ p.attrs.max = Option.none then .ok ()
  else do
    let m ← measurePy p v
    match p.attrs.min with
    | some mn =>
        if m < mn then
          .error (.invalidParameterValue
            (rangeHeader (strOfNTree v) (pyStrOfOptName p.attrs.name) (lowerTemplate p mn)))
        else checkMaxPart p v m
    | Option.none => checkMaxPart p v m

/-- The `try` body of `Parameter.coerce`: range check, parse, then the
optional validator (whose `False` result raises `ValueError`). -/
def coerceAttempt (p : Param) (v : NTree String) : Except PErr PyVal := do
  let _ ← checkRange p v
  let parsed ← (parsePy p v).mapError PErr.exc
  match p.attrs.validator with
  | some f => if f parsed then .ok parsed else .error (.exc .valueError)
  | Option.none => .ok parsed

/-- `Parameter.coerce` on a value that is not `None`: the empty-string check,
then the `try`/`except ValueError` block building the
`"Invalid %s value %s"` message (`value.decode` on a dict raises
`AttributeError`; `self.kind` on `List`/`Structure` raises
`AttributeError`). -/
def coerceNonNone (p : Param) (v : NTree String) : Except PErr PyVal :=
  if isEmptyStr v then
    if p.attrs.allowNone then .ok p.attrs.default
    else .error (.missingParameter (pyStrOfOptName p.attrs.name))
  else
    match coerceAttempt p v with
    | .error (.exc .valueError) =>
        match v with
        | .leaf s =>
            match p.kindOf with
            | some k => .error (.invalidParameterValue ("Invalid " ++ k ++ " value " ++ s))
            | Option.none => .error (.exc .attributeError)
        | .map _ => .error (.exc .attributeError)
    | r => r

/-- `Parameter.coerce`: `None` means no value at all was supplied. -/
def coercePy (p : Param) (value : Option (NTree String)) : Except PErr PyVal :=
  match value with
  | Option.none =>
      if p.attrs.optional then .ok p.attrs.default else coerceNonNone p (.leaf "")
  | some v => coerceNonNone p v

/-! ## Python `str()` of parsed values (used by `Integer.format` etc.) -/

def dtOffsetSuffix : Option Int → String
  | Option.none => ""
  | some off =>
      let sign := if off < 0 then "-" else "+"
      let a := off.natAbs
      sign ++ pad2 (a / 60) ++ ":" ++ pad2 (a % 60)

def dtStr (dt : PyDateTime) : String :=
  pad4 dt.year ++ "-" ++ pad2 dt.month ++ "-" ++ pad2 dt.day ++ " " ++
    pad2 dt.hour ++ ":" ++ pad2 dt.minute ++ ":" ++ pad2 dt.second ++
    dtOffsetSuffix dt.offsetMinutes

mutual

/-- Python `str(value)`. -/
def pyStr : PyVal → String
  | .str s => s
  | .int n => toString n
  | .bool b => if b then "True" else "False"
  | .none => "None"
  | .datetime dt => dtStr dt
  | .list xs => "[" ++ pyReprList xs ++ "]"
  | .dict m => "\x7b" ++ pyReprDict m ++ "\x7d"

/-- Python `repr(value)` (container elements render with `repr`). -/
def pyRepr : PyVal → String
  | .str s => "'" ++ s ++ "'"
  | .int n => toString n
  | .bool b => if b then "True" else "False"
  | .none => "None"
  | .datetime dt => dtStr dt
  | .list xs => "[" ++ pyReprList xs ++ "]"
  | .dict m => "\x7b" ++ pyReprDict m ++ "\x7d"

def pyReprList : List PyVal → String
  | [] => ""
  | v :: rest => pyRepr v ++ (if rest.isEmpty then "" else ", ") ++ pyReprList rest

def pyReprDict : List (String × PyVal) → String
  | [] => ""
  | (k, v) :: rest =>
      "'" ++ k ++ "': " ++ pyRepr v ++ (if rest.isEmpty then "" else ", ") ++ pyReprDict rest

end

/-- Python truthiness, as used by `Bool.format`'s `if value:`. -/
def pyTruthy : PyVal → Bool
  | .str s => s != ""
  | .int n => n != 0
  | .bool b => b
  | .none => false
  | .datetime _ => true
  | .list xs => !xs.isEmpty
  | .dict m => !m.isEmpty

/-! ## `format` (`Parameter.format` and its overrides) -/

/-- `Date.format`: convert to UTC via `utctimetuple`, then render
`"%Y-%m-%dT%H:%M:%SZ"`. -/
def dateFormatPy (dt : PyDateTime) : String :=
  let t := utctimetuple dt
  pad4 t.year ++ "-" ++ pad2 t.month ++ "-" ++ pad2 t.day ++ "T" ++
    pad2 t.hour ++ ":" ++ pad2 t.minute ++ ":" ++ pad2 t.second ++ "Z"

/-- The `format` methods.  `List` and `Structure` do not override the base
implementation, which raises `NotImplementedError`. -/
def formatPy : Param → PyVal → Except PErr PyVal
  | .unicode _, .str s => .ok (.str s)
  | .unicode _, _ => .error (.exc .attributeError)
  | .rawstr _, v => .ok v
  | .integer _, v => .ok (.str (pyStr v))
  | .bool _, v => .ok (.str (if pyTruthy v then "true" else "false"))
  | .enum _ _ reverse, v =>
      if pyHashable v then
        match plookup reverse v with
        | some k => .ok (.str k)
        | Option.none => .error (.exc (.keyError (pyStr v)))
      else .error (.exc .typeError)
  | .date _, .datetime dt => .ok (.str (dateFormatPy dt))
  | .date _, _ => .error (.exc .attributeError)
  | .list _ _, _ => .error .notImplementedError
  | .struct _ _, _ => .error .notImplementedError

/-! ## Path template algebra -/

/-- The loop of `Schema._get_template`: replace every odd-position segment
by `#`. -/
def markOdd : Nat → List String → List String
  | _, [] => []
  | i, seg :: rest => (if i % 2 = 1 then "#" else seg) :: markOdd (i + 1) rest

/-- `Schema._get_template`: replace every odd-position dotted segment by
`#`. -/
def getTemplate (key : String) : String :=
  joinDots (markOdd 0 (splitDots key))

/-- One key insertion of `_convert_flat_to_nest`: walk the dotted segments
with `setdefault`, creating intermediate dicts; an existing non-dict at an
intermediate position makes the next `setdefault` raise `AttributeError`;
an existing value at the final position is kept (the new value is
discarded). -/
def insertPath {α : Type} : List (String × NTree α) → List String → α →
    Except PErr (List (String × NTree α))
  | m, [], _ => .ok m
  | m, [s], v =>
      match alookup m s with
      | some _ => .ok m
      | Option.none => .ok (m ++ [(s, .leaf v)])
  | m, s :: s2 :: rest, v =>
      match alookup m s with
      | some (.map inner) => do
          let inner2 ← insertPath inner (s2 :: rest) v
          .ok (dictSet m s (.map inner2))
      | some (.leaf _) => .error (.exc .attributeError)
      | Option.none => do
          let inner2 ← insertPath [] (s2 :: rest) v
          .ok (m ++ [(s, .map inner2)])

/-- `_convert_flat_to_nest`: fold every `path ↦ value` entry into the nested
tree.  All segments stay strings; no index validation happens here. -/
def convertGo {α : Type} (acc : List (String × NTree α)) :
    List (String × α) → Except PErr (List (String × NTree α))
  | [] => .ok acc
  | (k, v) :: rest => do
      let acc2 ← insertPath acc (splitDots k) v
      convertGo acc2 rest

def convertFlatToNest {α : Type} (params : List (String × α)) :
    Except PErr (List (String × NTree α)) :=
  convertGo [] params

/-! ## `Schema._set_value` (index-validating nesting, used only by the dead
template-matching code path of `Schema.extract`) -/

/-- A key of the `_set_value` tree: name segments stay strings, odd-position
segments are converted to `int`. -/
inductive PKey where
  | name (s : String)
  | idx (n : Int)
deriving DecidableEq, Repr

/-- The tree `_set_value` writes into. -/
inductive KTree where
  | leaf (v : PyVal)
  | node (entries : List (PKey × KTree))

/-- The node-conversion loop of `Schema._set_value`: odd-position segments
must parse as non-negative integers, otherwise `UnknownParameterError(path)`
is raised. -/
def pathNodesGo (path : String) : Nat → List String → Except PErr (List PKey)
  | _, [] => .ok []
  | i, s :: rest =>
      if i % 2 = 1 then
        match pyInt s with
        | .error _ => .error (.unknownParameter path)
        | .ok n =>
            if n < 0 then .error (.unknownParameter path)
            else do
              let tail ← pathNodesGo path (i + 1) rest
              .ok (.idx n :: tail)
      else do
        let tail ← pathNodesGo path (i + 1) rest
        .ok (.name s :: tail)

def pathNodes (path : String) : Except PErr (List PKey) :=
  pathNodesGo path 0 (splitDots path)

/-- The `setdefault` walk of `_set_value`: descend through `nodes[:-1]`
creating empty dicts, then `tree[nodes[-1]] = value` (overwriting).  An
existing non-dict hit by `setdefault` raises `AttributeError`; one hit by
the final assignment raises `TypeError`. -/
def setNodes : List (PKey × KTree) → PKey → List PKey → PyVal →
    Except PErr (List (PKey × KTree))
  | m, n, [], v => .ok (dictSet m n (.leaf v))
  | m, n, n2 :: ns, v =>
      match alookup m n with
      | some (.node inner) => do
          let inner2 ← setNodes inner n2 ns v
          .ok (dictSet m n (.node inner2))
      | some (.leaf _) =>
          .error (.exc (match ns with | [] => .typeError | _ :: _ => .attributeError))
      | Option.none => do
          let inner2 ← setNodes [] n2 ns v
          .ok (m ++ [(n, .node inner2)])

/-- `Schema._set_value`. -/
def setValue (tree : List (PKey × KTree)) (path : String) (value : PyVal) :
    Except PErr (List (PKey × KTree)) := do
  let nodes ← pathNodes path
  match nodes with
  | [] => .error (.exc .indexError)
  | n :: ns => setNodes tree n ns value

/-! ## The module-level `extract` (the live code path of `Schema.extract`) -/

/-- The partition loop of the module-level `extract`: top-level nested keys
declared in the schema are parsed with the corresponding parameter, all
others land in the leftover dict with their nested subtree. -/
def extractGo (schema : List (String × Param)) :
    List (String × NTree String) →
    Except PErr (List (String × PyVal) × List (String × NTree String))
  | [] => .ok ([], [])
  | (k, v) :: rest =>
      match alookup schema k with
      | some p => do
          let pv ← (parsePy p v).mapError PErr.exc
          let or ← extractGo schema rest
          .ok ((k, pv) :: or.1, or.2)
      | Option.none => do
          let or ← extractGo schema rest
          .ok (or.1, (k, v) :: or.2)

/-- The module-level `extract(arguments, schema)`: nest the flat input, then
partition/parse by top-level key. -/
def moduleExtract (arguments : List (String × String)) (schema : List (String × Param)) :
    Except PErr (List (String × PyVal) × List (String × NTree String)) := do
  let nested ← convertFlatToNest arguments
  extractGo schema nested

/-! ## `Schema._flatten` and `Schema.bundle` -/

def lstripDots (s : String) : String :=
  String.mk (s.data.dropWhile (fun c => c = '.'))

mutual

/-- `Schema._flatten`: `Arguments` objects and dicts recurse per name, lists
recurse with 1-based indexes, `None` is discarded, every other leaf is
stored at `path.lstrip(".")` (an `Arguments` object is traversed exactly
like the dict it wraps, so it is modelled by `PyVal.dict`). -/
def flattenTree (params : List (String × PyVal)) (tree : PyVal) (path : String) :
    List (String × PyVal) :=
  match tree with
  | .dict entries => flattenDict params entries path
  | .list xs => flattenList params xs 1 path
  | .none => params
  | .str s => dictSet params (lstripDots path) (.str s)
  | .int n => dictSet params (lstripDots path) (.int n)
  | .bool b => dictSet params (lstripDots path) (.bool b)
  | .datetime dt => dictSet params (lstripDots path) (.datetime dt)

def flattenDict (params : List (String × PyVal)) (entries : List (String × PyVal))
    (path : String) : List (String × PyVal) :=
  match entries with
  | [] => params
  | (k, v) :: rest => flattenDict (flattenTree params v (path ++ "." ++ k)) rest path

def flattenList (params : List (String × PyVal)) (xs : List PyVal) (i : Nat)
    (path : String) : List (String × PyVal) :=
  match xs with
  | [] => params
  | v :: rest => flattenList (flattenTree params v (path ++ "." ++ toString i)) rest (i + 1) path

end

/-- `Schema.bundle`: flatten the argument trees (later ones override), then
the extra mapping, then resolve every flat key's template against the
schema's parameter map (`RuntimeError` when absent) and `format` the value
(`None` becomes the empty string). -/
def bundleFormatGo (schemaFields : List (String × Param)) :
    List (String × PyVal) → Except PErr (List (String × PyVal))
  | [] => .ok []
  | (name, value) :: rest =>
      match alookup schemaFields (getTemplate name) with
      | Option.none => .error (.runtimeError ("Parameter '" ++ name ++ "' not in schema"))
      | some p => do
          let fv ← (match value with
            | .none => Except.ok (PyVal.str "")
            | v => formatPy p v)
          let tail ← bundleFormatGo schemaFields rest
          .ok ((name, fv) :: tail)

def bundlePy (schemaFields : List (String × Param)) (argumentTrees : List PyVal)
    (extra : List (String × PyVal)) : Except PErr (List (String × PyVal)) := do
  let params := argumentTrees.foldl (fun acc t => flattenTree acc t "") []
  let params := flattenTree params (.dict extra) ""
  bundleFormatGo schemaFields params

/-! ## The legacy schema converter -/

/-- The attributes `Parameter.__init__` leaves when only structural arguments
are supplied (as in `Structure(fields=...)` / `List(item=...)` built by the
converter). -/
def defAttrs : PAttrs :=
  ⟨Option.none, false, PyVal.none, Option.none, Option.none, false, Option.none⟩

mutual

/-- `_secret_convert_old_schema`: even depths become `Structure`s over their
keys, odd depths must hold exactly one key (else the `assert` fails) and
become `List`s of the converted single value; leaves are returned as-is. -/
def secretConvert : NTree Param → Nat → Except PErr Param
  | .leaf p, _ => .ok p
  | .map m, depth =>
      if depth % 2 = 0 then
        (secretFields m depth).map (fun fs => Param.struct defAttrs fs)
      else
        match m with
        | [] => .error .assertionError
        | [(_, v)] => (secretConvert v (depth + 1)).map (fun item => Param.list defAttrs item)
        | _ :: _ :: _ => .error .assertionError

def secretFields : List (String × NTree Param) → Nat → Except PErr (List (String × Param))
  | [], _ => .ok []
  | (k, v) :: rest, depth => do
      let p ← secretConvert v (depth + 1)
      let tail ← secretFields rest depth
      .ok ((k, p) :: tail)

end

/-- `_convert_old_schema`: collect the parameters into a dict keyed by their
names, nest it, convert with `_secret_convert_old_schema` at depth 0, and
take the resulting `Structure`'s field map (a `None` name would make
`k.split('.')` raise `AttributeError`). -/
def nameKeys : List (Option String × Param) → Except PErr (List (String × Param))
  | [] => .ok []
  | (some n, p) :: rest => do
      let tail ← nameKeys rest
      .ok ((n, p) :: tail)
  | (Option.none, _) :: _ => .error (.exc .attributeError)

def convertOldSchema (parameters : List Param) : Except PErr (List (String × Param)) := do
  let crap := parameters.foldl (fun acc p => dictSet acc p.attrs.name p)
    ([] : List (Option String × Param))
  let crapS ← nameKeys crap
  let nested ← convertFlatToNest crapS
  let s ← secretConvert (.map nested) 0
  match s with
  | .struct _ fields => .ok fields
  | _ => .error (.exc .attributeError)

/-- `Schema.__init__` followed by `Schema.extract`: convert the declared
parameters, then run the live code path (the module-level `extract`; the
template-matching code after the early `return` is unreachable). -/
def schemaExtract (parameters : List Param) (params : List (String × String)) :
    Except PErr (List (String × PyVal) × List (String × NTree String)) := do
  let fields ← convertOldSchema parameters
  moduleExtract params fields

/-- `Enum.__init__`: a missing mapping raises `MissingParameterError`; the
reverse dict is computed with no injectivity check (an unhashable value
would raise `TypeError` while building it). -/
def buildReverse (mapping : List (String × PyVal)) : List (PyVal × String) :=
  mapping.foldl (fun acc kv => pdictSet acc kv.2 kv.1) []

def enumInit (name : Option String) (mapping : Option (List (String × PyVal)))
    (optional : Bool) (default : PyVal) : Except PErr Param :=
  match mapping with
  | Option.none => .error (.missingParameter "Must provide mapping")
  | some m =>
      if m.any (fun kv => !pyHashable kv.2) then .error (.exc .typeError)
      else .ok (.enum ⟨name, optional, default, Option.none, Option.none, false, Option.none⟩
        m (buildReverse m))

/-- `Integer(name)` with all the other constructor arguments left at their
defaults (`optional=False, default=None, min=0, max=None, allow_none=False,
validator=None`). -/
def integerNamed (n : String) : Param :=
  .integer ⟨some n, false, PyVal.none, some 0, Option.none, false, Option.none⟩

/-- Whether a path segment would fail `_set_value`'s index conversion
(not an integer, or negative). -/
def idxSegBad (s : String) : Bool :=
  match pyInt s with
  | .error _ => true
  | .ok n => decide (n < 0)

/-! ## Helper lemmas -/

@[simp] theorem exceptBind_ok {ε α β : Type} (a : α) (f : α → Except ε β) :
    (Except.ok a : Except ε α) >>= f = f a := rfl

@[simp] theorem exceptBind_error {ε α β : Type} (e : ε) (f : α → Except ε β) :
    (Except.error e : Except ε α) >>= f = Except.error e := rfl

@[simp] theorem exceptMap_ok {ε α β : Type} (g : α → β) (a : α) :
    Except.map g (Except.ok a : Except ε α) = Except.ok (g a) := rfl

@[simp] theorem exceptMap_error {ε α β : Type} (g : α → β) (e : ε) :
    Except.map g (Except.error e : Except ε α) = Except.error e := rfl

@[simp] theorem exceptMapError_ok {ε ι α : Type} (g : ε → ι) (a : α) :
    Except.mapError g (Except.ok a : Except ε α) = Except.ok a := rfl

@[simp] theorem exceptMapError_error {ε ι α : Type} (g : ε → ι) (e : ε) :
    Except.mapError g (Except.error e : Except ε α) = Except.error (g e) := rfl

/-! ## Claim theorems -/

/-- C1: the claim says `extract({})` on a schema with one required Integer
parameter `"Count"` raises MissingParameter("Count").  Evaluating the live
code path at that failing input shows it instead returns an empty argument
tree and empty leftovers without raising: the `coerce(None)` synthesis
(`Schema._ensure_tree`) sits in dead code after the early `return` of
`Schema.extract`, and the module-level `extract` never consults declared
parameters that are absent from the input. -/
theorem extract_omits_missing_parameter_check :
    schemaExtract [integerNamed "Count"] [] = .ok ([], []) := rfl

/-- C2: the claim says `bundle` of an extracted argument tree re-extracts to
the same tree.  Evaluating the code at the failing input: extraction of
`{"foo.1.baz": "5"}` against `Schema(Integer("foo.bar.baz"))` succeeds, but
`bundle` of the resulting tree raises
`RuntimeError("Parameter 'foo.1.baz' not in schema")`, because the converted
`_parameters` map is keyed by top-level names (`"foo"`) while `bundle` still
resolves dotted templates (`"foo.#.baz"`).  (An `Arguments` object is
traversed by `_flatten` exactly like the dict it wraps, so the tree is
passed as a dict.) -/
theorem bundle_after_extract_raises_runtime_error :
    schemaExtract [integerNamed "foo.bar.baz"] [("foo.1.baz", "5")]
      = .ok ([("foo", .list [.dict [("baz", .int 5)]])], []) ∧
    (do
      let fields ← convertOldSchema [integerNamed "foo.bar.baz"]
      bundlePy fields [PyVal.dict [("foo", .list [.dict [("baz", .int 5)]])]] [])
      = .error (.runtimeError "Parameter 'foo.1.baz' not in schema") := ⟨rfl, rfl⟩

/-- C3 counterexample: the claim says a key whose canonical template is not
declared is returned in leftovers and never makes extraction raise.  The key
`"foo.bar"` has canonical template `"foo.#"`, which is not the declared
template (`"foo.#.baz"`), yet extracting it raises (an uncaught
`AttributeError` from `Structure.parse` receiving the raw string `"x"`),
because the live `extract` routes by top-level segment only and `"foo"` is
declared. -/
theorem undeclared_template_key_can_raise :
    getTemplate "foo.bar" = "foo.#" ∧
    getTemplate "foo.bar.baz" = "foo.#.baz" ∧
    schemaExtract [integerNamed "foo.bar.baz"] [("foo.bar", "x")]
      = .error (.exc .attributeError) := ⟨rfl, rfl, rfl⟩

/-- C5: converting the legacy parameters `Integer("foo.bar.baz")` and
`Integer("foo.bar.shimmy")` yields `{"foo": List(item=Structure{"baz", "shimmy"})}`
(the leaf parameters kept as given), and extracting
`{"foo.1.baz": "5", "foo.1.shimmy": "6"}` against that schema yields an
argument tree with `foo[0] == {"baz": 5, "shimmy": 6}`. -/
theorem legacy_conversion_and_extraction_example :
    convertOldSchema [integerNamed "foo.bar.baz", integerNamed "foo.bar.shimmy"]
      = .ok [("foo", .list defAttrs (.struct defAttrs
          [("baz", integerNamed "foo.bar.baz"), ("shimmy", integerNamed "foo.bar.shimmy")]))] ∧
    schemaExtract [integerNamed "foo.bar.baz", integerNamed "foo.bar.shimmy"]
        [("foo.1.baz", "5"), ("foo.1.shimmy", "6")]
      = .ok ([("foo", .list [.dict [("baz", .int 5), ("shimmy", .int 6)]])], []) := ⟨rfl, rfl⟩

/-- C6 counterexample: the claim says a non-injective Enum mapping is
rejected at construction time.  Constructing an Enum with the mapping
`{"a": 0, "b": 0}` succeeds, and the precomputed reverse mapping silently
keeps the last-inserted token (`0 ↦ "b"`): `Enum.__init__` performs no
injectivity check. -/
theorem enum_duplicate_values_accepted :
    enumInit Option.none (some [("a", .int 0), ("b", .int 0)]) false .none
      = .ok (.enum ⟨Option.none, false, .none, Option.none, Option.none, false, Option.none⟩
          [("a", .int 0), ("b", .int 0)] [(.int 0, "b")]) := rfl

/-- C7 counterexample: the claim says nesting during extraction fails with
UnknownParameter on a non-integer odd-position segment and converts integer
segments to ints.  The live nesting (`_convert_flat_to_nest`) does neither:
`{"foo.bar.baz": "v"}` (odd-position segment `"bar"`) nests successfully
with all segments kept as strings, and extraction returns it as a leftover
without raising. -/
theorem extraction_nesting_skips_index_validation :
    convertFlatToNest [("foo.bar.baz", "v")]
      = .ok [("foo", .map [("bar", .map [("baz", .leaf "v")])])] ∧
    moduleExtract [("foo.bar.baz", "v")] []
      = .ok ([], [("foo", .map [("bar", .map [("baz", .leaf "v")])])]) := ⟨rfl, rfl⟩

/-- C8: for every Integer parameter constructed with the default minimum
(`min=0`) and no explicit maximum (the other constructor arguments at their
defaults, any name/optional/default/allow_none), `coerce("-1")` raises
InvalidParameterValue (range check before parse) and `coerce("0")` succeeds
with the integer 0. -/
theorem integer_min_zero_range_check :
    ∀ (name : Option String) (opt : Bool) (dflt : PyVal) (an : Bool),
    coercePy (.integer ⟨name, opt, dflt, some 0, Option.none, an, Option.none⟩)
        (some (.leaf "-1"))
      = .error (.invalidParameterValue
          (rangeHeader "-1" (pyStrOfOptName name) "Value must be at least 0.")) ∧
    coercePy (.integer ⟨name, opt, dflt, some 0, Option.none, an, Option.none⟩)
        (some (.leaf "0"))
      = .ok (.int 0) :=
  fun _ _ _ _ => ⟨rfl, rfl⟩

/-- C9: the claim says `Date.parse` normalizes explicit offsets to UTC, so
`"2010-01-01T17:00:00+05:00"` and `"2010-01-01T12:00:00Z"` parse to equal
instants.  Evaluating the code at the failing input:
`parse(value).replace(tzinfo=tzutc())` keeps the wall-clock fields and
merely relabels the zone, so the two strings parse to `17:00:00Z` and
`12:00:00Z` respectively — different values denoting instants 18000 seconds
apart. -/
theorem date_parse_replaces_timezone_without_converting :
    parsePy (.date defAttrs) (.leaf "2010-01-01T17:00:00+05:00")
      = .ok (.datetime ⟨2010, 1, 1, 17, 0, 0, some 0⟩) ∧
    parsePy (.date defAttrs) (.leaf "2010-01-01T12:00:00Z")
      = .ok (.datetime ⟨2010, 1, 1, 12, 0, 0, some 0⟩) ∧
    (⟨2010, 1, 1, 17, 0, 0, some 0⟩ : PyDateTime) ≠ ⟨2010, 1, 1, 12, 0, 0, some 0⟩ ∧
    dtInstantSeconds ⟨2010, 1, 1, 17, 0, 0, some 0⟩
      ≠ dtInstantSeconds ⟨2010, 1, 1, 12, 0, 0, some 0⟩ :=
  ⟨rfl, rfl, by decide, by decide⟩

/-- C4: `Parameter.coerce` — absent input (`None`) returns the default when
the parameter is optional and otherwise is treated exactly as the empty
string; empty-string input raises MissingParameter(name) when `allow_none`
is false and returns the default when it is true. -/
theorem coerce_absent_and_empty :
    ∀ p : Param,
    (p.attrs.optional = true → coercePy p Option.none = .ok p.attrs.default) ∧
    (p.attrs.optional = false →
        coercePy p Option.none = coercePy p (some (.leaf ""))) ∧
    (p.attrs.allowNone = false →
        coercePy p (some (.leaf ""))
          = .error (.missingParameter (pyStrOfOptName p.attrs.name))) ∧
    (p.attrs.allowNone = true →
        coercePy p (some (.leaf "")) = .ok p.attrs.default) := by
  intro p
  refine ⟨fun h => ?_, fun h => ?_, fun h => ?_, fun h => ?_⟩
  · simp [coercePy, h]
  · simp [coercePy, h]
  · simp [coercePy, coerceNonNone, isEmptyStr, h]
  · simp [coercePy, coerceNonNone, isEmptyStr, h]

/-- Witness for `coerce_absent_and_empty` at concrete parameters. -/
theorem coerce_absent_and_empty_witness :
    coercePy (Param.unicode ⟨some "N", true, .str "d", Option.none, Option.none,
        false, Option.none⟩) Option.none = .ok (.str "d") ∧
    coercePy (Param.unicode ⟨some "N", false, .str "d", Option.none, Option.none,
        false, Option.none⟩) Option.none
      = coercePy (Param.unicode ⟨some "N", false, .str "d", Option.none, Option.none,
        false, Option.none⟩) (some (.leaf "")) ∧
    coercePy (Param.unicode ⟨some "N", false, .str "d", Option.none, Option.none,
        false, Option.none⟩) (some (.leaf "")) = .error (.missingParameter "N") ∧
    coercePy (Param.unicode ⟨some "N", false, .str "d", Option.none, Option.none,
        true, Option.none⟩) (some (.leaf "")) = .ok (.str "d") :=
  ⟨(coerce_absent_and_empty _).1 rfl, (coerce_absent_and_empty _).2.1 rfl,
    (coerce_absent_and_empty _).2.2.1 rfl, (coerce_absent_and_empty _).2.2.2 rfl⟩

/-- If some input key is not among the declared fields, `Structure.parse`
fails (with whatever plain exception comes first in iteration order). -/
theorem parseStructGo_fails {fields : List (String × Param)} :
    ∀ entries : List (String × NTree String),
    (∃ kv ∈ entries, alookup fields kv.1 = Option.none) →
    ∃ e, parseStructGo fields entries = .error e := by
  intro entries
  induction entries with
  | nil =>
      rintro ⟨kv, h, _⟩
      exact absurd h (List.not_mem_nil kv)
  | cons head tail ih =>
      rintro ⟨kv, hm, hl⟩
      obtain ⟨k, w⟩ := head
      cases hk : alookup fields k with
      | none => exact ⟨.keyError k, by simp [parseStructGo, hk]⟩
      | some q =>
          cases hp : parsePy q w with
          | error e => exact ⟨e, by simp [parseStructGo, hk, hp]⟩
          | ok pv =>
              rcases List.mem_cons.mp hm with heq | hmem
              · rw [heq] at hl
                simp [hk] at hl
              · obtain ⟨e, he⟩ := ih ⟨kv, hmem, hl⟩
                exact ⟨e, by simp [parseStructGo, hk, hp, he]⟩

/-- C10: for every Structure parameter and every input mapping containing a
field name not among the declared fields, `Structure.parse` fails, and the
error lies outside the declared request-error taxonomy (it is a plain
Python exception — `KeyError` for the unknown field itself, or whatever an
earlier entry raised): the unknown field is neither ignored nor routed to
leftovers. -/
theorem structure_parse_unknown_field_escapes_taxonomy :
    ∀ (a : PAttrs) (fields : List (String × Param)) (entries : List (String × NTree String)),
    (∃ kv ∈ entries, alookup fields kv.1 = Option.none) →
    ∃ e : PyExc, parsePy (.struct a fields) (.map entries) = .error e ∧
      (PErr.exc e).inTaxonomy = false := by
  intro a fields entries h
  obtain ⟨e, he⟩ := parseStructGo_fails entries h
  exact ⟨e, by simp [parsePy, he], rfl⟩

/-- Witness for `structure_parse_unknown_field_escapes_taxonomy`:
a structure with the single field `"baz"` receiving the unknown field
`"nope"`. -/
theorem structure_parse_unknown_field_escapes_taxonomy_witness :
    ∃ e : PyExc, parsePy (.struct defAttrs [("baz", integerNamed "b")])
        (.map [("nope", .leaf "1")]) = .error e ∧ (PErr.exc e).inTaxonomy = false :=
  structure_parse_unknown_field_escapes_taxonomy defAttrs [("baz", integerNamed "b")]
    [("nope", .leaf "1")] ⟨("nope", .leaf "1"), List.mem_singleton.mpr rfl, rfl⟩

/-- If every top-level key is undeclared, the partition loop returns
everything as leftovers. -/
theorem extractGo_all_unknown {schema : List (String × Param)} :
    ∀ l : List (String × NTree String),
    (∀ kv ∈ l, alookup schema kv.1 = Option.none) →
    extractGo schema l = .ok ([], l) := by
  intro l
  induction l with
  | nil => intro _; rfl
  | cons head tail ih =>
      intro h
      obtain ⟨k, v⟩ := head
      have hk : alookup schema k = Option.none := h (k, v) (List.mem_cons_self _ _)
      have ht := ih (fun kv hm => h kv (List.mem_cons_of_mem _ hm))
      simp [extractGo, hk, ht]

/-- Every key of the typed output of the partition loop is declared. -/
theorem extractGo_output_declared {schema : List (String × Param)} :
    ∀ (l : List (String × NTree String)) (out : List (String × PyVal))
      (rest : List (String × NTree String)),
    extractGo schema l = .ok (out, rest) →
    ∀ k, alookup schema k = Option.none → alookup out k = Option.none := by
  intro l
  induction l with
  | nil =>
      intro out rest h k hk
      simp [extractGo] at h
      obtain ⟨h1, _⟩ := h
      subst h1
      rfl
  | cons head tail ih =>
      intro out rest h k hk
      obtain ⟨k0, v0⟩ := head
      cases hk0 : alookup schema k0 with
      | some p =>
          cases hp : parsePy p v0 with
          | error e => simp [extractGo, hk0, hp] at h
          | ok pv =>
              cases hgo : extractGo schema tail with
              | error e => simp [extractGo, hk0, hp, hgo] at h
              | ok pr =>
                  obtain ⟨o2, r2⟩ := pr
                  simp [extractGo, hk0, hp, hgo] at h
                  obtain ⟨ho, _⟩ := h
                  have hne : k0 ≠ k := by
                    intro he
                    rw [he, hk] at hk0
                    cases hk0
                  rw [← ho]
                  simp [alookup, hne]
                  exact ih o2 r2 hgo k hk
      | none =>
          cases hgo : extractGo schema tail with
          | error e => simp [extractGo, hk0, hgo] at h
          | ok pr =>
              obtain ⟨o2, r2⟩ := pr
              simp [extractGo, hk0, hgo] at h
              obtain ⟨ho, _⟩ := h
              rw [← ho]
              exact ih o2 r2 hgo k hk

/-- Every undeclared input entry ends up in the leftovers of the partition
loop. -/
theorem extractGo_unknown_mem_rest {schema : List (String × Param)} :
    ∀ (l : List (String × NTree String)) (out : List (String × PyVal))
      (rest : List (String × NTree String)),
    extractGo schema l = .ok (out, rest) →
    ∀ k v, (k, v) ∈ l → alookup schema k = Option.none → (k, v) ∈ rest := by
  intro l
  induction l with
  | nil =>
      intro out rest h k v hm
      exact absurd hm (List.not_mem_nil (k, v))
  | cons head tail ih =>
      intro out rest h k v hm hk
      obtain ⟨k0, v0⟩ := head
      cases hk0 : alookup schema k0 with
      | some p =>
          cases hp : parsePy p v0 with
          | error e => simp [extractGo, hk0, hp] at h
          | ok pv =>
              cases hgo : extractGo schema tail with
              | error e => simp [extractGo, hk0, hp, hgo] at h
              | ok pr =>
                  obtain ⟨o2, r2⟩ := pr
                  simp [extractGo, hk0, hp, hgo] at h
                  obtain ⟨_, hr⟩ := h
                  rcases List.mem_cons.mp hm with heq | hmem
                  · exfalso
                    rw [Prod.mk.injEq] at heq
                    rw [heq.1] at hk
                    rw [hk0] at hk
                    cases hk
                  · rw [← hr]
                    exact ih o2 r2 hgo k v hmem hk
      | none =>
          cases hgo : extractGo schema tail with
          | error e => simp [extractGo, hk0, hgo] at h
          | ok pr =>
              obtain ⟨o2, r2⟩ := pr
              simp [extractGo, hk0, hgo] at h
              obtain ⟨_, hr⟩ := h
              rw [← hr]
              rcases List.mem_cons.mp hm with heq | hmem
              · rw [heq]
                exact List.mem_cons_self _ _
              · exact List.mem_cons_of_mem _ (ih o2 r2 hgo k v hmem hk)

/-- C3 (amended): the live `extract` routes by top-level dotted segment.
When nesting succeeds, every nested top-level group whose segment is not a
declared top-level schema name is returned in the leftover map (keyed by
that segment, holding the nested remainder) and never appears in the typed
output; when no group matches the schema, extraction returns all groups as
leftovers without raising.  (A key whose first segment is declared is
parsed and can raise even when its full template is undeclared — see the
counterexample theorem.) -/
theorem extract_routes_by_top_level_segment :
    ∀ (args : List (String × String)) (schema : List (String × Param))
      (nested : List (String × NTree String)),
    convertFlatToNest args = .ok nested →
    ((∀ kv ∈ nested, alookup schema kv.1 = Option.none) →
        moduleExtract args schema = .ok ([], nested)) ∧
    (∀ out rest, moduleExtract args schema = .ok (out, rest) →
        ∀ k v, (k, v) ∈ nested → alookup schema k = Option.none →
          ((k, v) ∈ rest ∧ alookup out k = Option.none)) := by
  intro args schema nested hn
  constructor
  · intro h
    simp [moduleExtract, hn]
    exact extractGo_all_unknown nested h
  · intro out rest h k v hm hk
    have h2 : extractGo schema nested = .ok (out, rest) := by
      simpa [moduleExtract, hn] using h
    exact ⟨extractGo_unknown_mem_rest nested out rest h2 k v hm hk,
      extractGo_output_declared nested out rest h2 k hk⟩

/-- Witness for `extract_routes_by_top_level_segment`: extracting
`{"Bogus": "x"}` against a schema declaring only `"Count"` returns it as a
leftover without raising. -/
theorem extract_routes_by_top_level_segment_witness :
    moduleExtract [("Bogus", "x")] [("Count", integerNamed "Count")]
      = .ok ([], [("Bogus", .leaf "x")]) :=
  (extract_routes_by_top_level_segment [("Bogus", "x")] [("Count", integerNamed "Count")]
      [("Bogus", .leaf "x")] rfl).1
    (by
      intro kv hm
      rw [List.mem_singleton] at hm
      subst hm
      rfl)

theorem pyKeyEq_refl {v : PyVal} (h : pyHashable v = true) : pyKeyEq v v = true := by
  cases v <;> simp_all [pyHashable, pyKeyEq]

theorem pyKeyEq_true_eq {w u : PyVal} (h : pyKeyEq w u = true) : w = u := by
  cases w <;> cases u <;> simp_all [pyKeyEq]

theorem pyKeyEq_of_ne {w u : PyVal} (h : w ≠ u) : pyKeyEq w u = false := by
  cases hw : pyKeyEq w u
  · rfl
  · exact absurd (pyKeyEq_true_eq hw) h

theorem plookup_pdictSet_self {α : Type} (acc : List (PyVal × α)) (v : PyVal) (k : α)
    (hv : pyKeyEq v v = true) : plookup (pdictSet acc v k) v = some k := by
  induction acc with
  | nil => simp [pdictSet, plookup, hv]
  | cons head rest ih =>
      obtain ⟨w0, s0⟩ := head
      cases h0 : pyKeyEq w0 v with
      | true => simp [pdictSet, h0, plookup, hv]
      | false => simp [pdictSet, h0, plookup, ih]

theorem plookup_pdictSet_other {α : Type} (acc : List (PyVal × α)) (w : PyVal) (k : α)
    (v : PyVal) (hne : pyKeyEq w v = false) :
    plookup (pdictSet acc w k) v = plookup acc v := by
  induction acc with
  | nil => simp [pdictSet, plookup, hne]
  | cons head rest ih =>
      obtain ⟨w0, s0⟩ := head
      cases h0 : pyKeyEq w0 w with
      | true =>
          have hw0 : w0 = w := pyKeyEq_true_eq h0
          subst hw0
          simp [pdictSet, h0, plookup, hne]
      | false =>
          cases hv0 : pyKeyEq w0 v with
          | true => simp [pdictSet, h0, plookup, hv0]
          | false => simp [pdictSet, h0, plookup, hv0, ih]

/-- Entries whose value never equals `v` do not affect the reverse lookup of
`v`. -/
theorem buildReverse_skip (l : List (String × PyVal)) (acc : List (PyVal × String))
    (v : PyVal) (hl : ∀ kv ∈ l, kv.2 ≠ v) :
    plookup (l.foldl (fun a kv => pdictSet a kv.2 kv.1) acc) v = plookup acc v := by
  induction l generalizing acc with
  | nil => rfl
  | cons head rest ih =>
      obtain ⟨k0, w0⟩ := head
      have hne : pyKeyEq w0 v = false :=
        pyKeyEq_of_ne (hl (k0, w0) (List.mem_cons_self _ _))
      rw [List.foldl_cons, ih _ (fun kv hm => hl kv (List.mem_cons_of_mem _ hm))]
      exact plookup_pdictSet_other acc w0 k0 v hne

/-- C6 (amended): `Enum.__init__` performs no injectivity check — a mapping
containing two distinct tokens `k1 ≠ k2` for the same (hashable) value `v`
is accepted, and the precomputed reverse mapping resolves `v` to the token
of the last mapping entry holding it (insertion order decides the
ambiguity; nothing fails at construction time). -/
theorem enum_reverse_last_token_wins :
    ∀ (name : Option String) (m pre post : List (String × PyVal)) (opt : Bool)
      (dflt : PyVal) (k1 k2 : String) (v : PyVal),
    m = pre ++ (k2, v) :: post →
    (k1, v) ∈ pre →
    k1 ≠ k2 →
    (∀ kv ∈ post, kv.2 ≠ v) →
    (∀ kv ∈ m, pyHashable kv.2 = true) →
    enumInit name (some m) opt dflt
      = .ok (.enum ⟨name, opt, dflt, Option.none, Option.none, false, Option.none⟩
          m (buildReverse m)) ∧
    plookup (buildReverse m) v = some k2 := by
  intro name m pre post opt dflt k1 k2 v hm hpre hne hpost hhash
  have hany : m.any (fun kv => !pyHashable kv.2) = false := by
    rw [List.any_eq_false]
    intro kv hkv
    rw [hhash kv hkv]
    intro hc
    cases hc
  constructor
  · simp [enumInit, hany]
  · have hv : pyHashable v = true :=
      hhash (k2, v) (hm ▸ List.mem_append_right _ (List.mem_cons_self _ _))
    rw [hm]
    unfold buildReverse
    rw [List.foldl_append, List.foldl_cons]
    rw [buildReverse_skip post _ v hpost]
    exact plookup_pdictSet_self _ v k2 (pyKeyEq_refl hv)

/-- Witness for `enum_reverse_last_token_wins`: the mapping
`{"a": 0, "b": 0}`. -/
theorem enum_reverse_last_token_wins_witness :
    enumInit Option.none (some [("a", .int 0), ("b", .int 0)]) false .none
      = .ok (.enum ⟨Option.none, false, .none, Option.none, Option.none, false, Option.none⟩
          [("a", .int 0), ("b", .int 0)] (buildReverse [("a", .int 0), ("b", .int 0)])) ∧
    plookup (buildReverse [("a", .int 0), ("b", .int 0)]) (.int 0) = some "b" :=
  enum_reverse_last_token_wins Option.none [("a", .int 0), ("b", .int 0)] [("a", .int 0)] []
    false .none "a" "b" (.int 0) rfl (List.mem_singleton.mpr rfl) (by decide)
    (fun kv hkv => absurd hkv (List.not_mem_nil kv))
    (by
      intro kv hkv
      rcases List.mem_cons.mp hkv with h | h
      · rw [h]; rfl
      · rw [List.mem_singleton] at h
        rw [h]; rfl)

/-- Full behaviour of the node-conversion loop of `_set_value`, with the
running position `i` generalized: a bad odd-position segment anywhere makes
it fail with `UnknownParameterError(path)`; on success, odd-position
segments come out as the converted integers and even-position segments as
their names. -/
theorem pathNodesGo_spec :
    ∀ (path : String) (l : List String) (i : Nat),
    ((∃ j s, l.get? j = some s ∧ (i + j) % 2 = 1 ∧ idxSegBad s = true) →
        pathNodesGo path i l = .error (.unknownParameter path)) ∧
    (∀ ks, pathNodesGo path i l = .ok ks →
        ks.length = l.length ∧
        ∀ j s, l.get? j = some s →
          (((i + j) % 2 = 1 → ∃ n, pyInt s = .ok n ∧ ¬n < 0 ∧ ks.get? j = some (.idx n)) ∧
           ((i + j) % 2 = 0 → ks.get? j = some (.name s)))) := by
  intro path l
  induction l with
  | nil =>
      intro i
      constructor
      · rintro ⟨j, s, hj, -, -⟩
        simp at hj
      · intro ks hks
        simp [pathNodesGo] at hks
        subst hks
        exact ⟨rfl, fun j s hj => by simp at hj⟩
  | cons s0 rest ih =>
      intro i
      by_cases hi : i % 2 = 1
      · cases hpi : pyInt s0 with
        | error e =>
            constructor
            · intro _
              simp [pathNodesGo, hi, hpi]
            · intro ks hks
              simp [pathNodesGo, hi, hpi] at hks
        | ok n =>
            by_cases hn : n < 0
            · constructor
              · intro _
                simp [pathNodesGo, hi, hpi, hn]
              · intro ks hks
                simp [pathNodesGo, hi, hpi, hn] at hks
            · constructor
              · rintro ⟨j, s, hj, hpar, hbad⟩
                cases j with
                | zero =>
                    simp at hj
                    subst hj
                    exfalso
                    unfold idxSegBad at hbad
                    rw [hpi] at hbad
                    simp [hn] at hbad
                | succ j2 =>
                    have herr := (ih (i + 1)).1
                      ⟨j2, s, by simpa using hj, by omega, hbad⟩
                    simp [pathNodesGo, hi, hpi, hn, herr]
              · intro ks hks
                cases hrec : pathNodesGo path (i + 1) rest with
                | error e => simp [pathNodesGo, hi, hpi, hn, hrec] at hks
                | ok tail =>
                    simp [pathNodesGo, hi, hpi, hn, hrec] at hks
                    subst hks
                    obtain ⟨hlen, hspec⟩ := (ih (i + 1)).2 tail hrec
                    refine ⟨by simp [hlen], ?_⟩
                    intro j s hj
                    cases j with
                    | zero =>
                        simp at hj
                        subst hj
                        constructor
                        · intro _
                          exact ⟨n, hpi, hn, rfl⟩
                        · intro h0
                          omega
                    | succ j2 =>
                        have hj2 : rest.get? j2 = some s := by simpa using hj
                        have hsp := hspec j2 s hj2
                        constructor
                        · intro hpar
                          obtain ⟨n2, h1, h2, h3⟩ := hsp.1 (by omega)
                          exact ⟨n2, h1, h2, by simpa using h3⟩
                        · intro hpar
                          have := hsp.2 (by omega)
                          simpa using this
      · constructor
        · rintro ⟨j, s, hj, hpar, hbad⟩
          cases j with
          | zero => omega
          | succ j2 =>
              have herr := (ih (i + 1)).1 ⟨j2, s, by simpa using hj, by omega, hbad⟩
              simp [pathNodesGo, hi, herr]
        · intro ks hks
          cases hrec : pathNodesGo path (i + 1) rest with
          | error e => simp [pathNodesGo, hi, hrec] at hks
          | ok tail =>
              simp [pathNodesGo, hi, hrec] at hks
              subst hks
              obtain ⟨hlen, hspec⟩ := (ih (i + 1)).2 tail hrec
              refine ⟨by simp [hlen], ?_⟩
              intro j s hj
              cases j with
              | zero =>
                  simp at hj
                  subst hj
                  exact ⟨fun hpar => absurd hpar (by omega), fun _ => rfl⟩
              | succ j2 =>
                  have hj2 : rest.get? j2 = some s := by simpa using hj
                  have hsp := hspec j2 s hj2
                  constructor
                  · intro hpar
                    obtain ⟨n2, h1, h2, h3⟩ := hsp.1 (by omega)
                    exact ⟨n2, h1, h2, by simpa using h3⟩
                  · intro hpar
                    have := hsp.2 (by omega)
                    simpa using this

/-- C7 (amended): index-segment validation and integer conversion live in
`Schema._set_value` (which the live extraction path never calls), not in
the nesting done during extraction: `_set_value` fails with
`UnknownParameterError(path)` whenever some odd-position segment of the
path is not a non-negative decimal integer, and on well-formed paths the
node list holds the odd-position segments converted to integers and the
even-position segments as names.  (`_convert_flat_to_nest`, the nesting
used during extraction, keeps all segments as strings — see the
counterexample theorem.) -/
theorem set_value_index_segment_conversion :
    ∀ (path : String) (tree : List (PKey × KTree)) (value : PyVal),
    ((∃ j s, (splitDots path).get? j = some s ∧ j % 2 = 1 ∧ idxSegBad s = true) →
        setValue tree path value = .error (.unknownParameter path)) ∧
    (∀ ks, pathNodes path = .ok ks →
        ks.length = (splitDots path).length ∧
        ∀ j s, (splitDots path).get? j = some s →
          ((j % 2 = 1 → ∃ n, pyInt s = .ok n ∧ ¬n < 0 ∧ ks.get? j = some (.idx n)) ∧
           (j % 2 = 0 → ks.get? j = some (.name s)))) := by
  intro path tree value
  have hspec := pathNodesGo_spec path (splitDots path) 0
  constructor
  · rintro ⟨j, s, hj, hpar, hbad⟩
    have herr : pathNodes path = .error (.unknownParameter path) :=
      hspec.1 ⟨j, s, hj, by omega, hbad⟩
    simp [setValue, herr]
  · intro ks hks
    obtain ⟨hlen, hsp⟩ := hspec.2 ks hks
    refine ⟨hlen, ?_⟩
    intro j s hj
    have := hsp j s hj
    exact ⟨fun hpar => this.1 (by omega), fun hpar => this.2 (by omega)⟩

/-- Witness for `set_value_index_segment_conversion`: the path `"a.b"`
(non-integer index segment `"b"`) makes `_set_value` raise, and the path
`"x.3"` converts its index segment to the integer 3. -/
theorem set_value_index_segment_conversion_witness :
    setValue [] "a.b" (.bool true) = .error (.unknownParameter "a.b") ∧
    ([PKey.name "x", PKey.idx 3] : List PKey).length = (splitDots "x.3").length ∧
    (∃ n, pyInt "3" = .ok n ∧ ¬n < 0 ∧
      ([PKey.name "x", PKey.idx 3] : List PKey).get? 1 = some (.idx n)) :=
  ⟨(set_value_index_segment_conversion "a.b" [] (.bool true)).1 ⟨1, "b", rfl, rfl, rfl⟩,
   ((set_value_index_segment_conversion "x.3" [] .none).2 [.name "x", .idx 3] rfl).1,
   (((set_value_index_segment_conversion "x.3" [] .none).2 [.name "x", .idx 3] rfl).2
      1 "3" rfl).1 rfl⟩
